import Mathlib

/-!
Verification of the viewport-driven enhancement pipeline of the
nano-banana-telescope repository.

The TypeScript sources are shallowly embedded: JS numbers appearing in the
coordinate/zoom arithmetic are modelled as rationals (`ℚ`), pixel fields
produced by `Math.round` as integers (`ℤ`), strings as Lean `String`.
`Math.round` is modelled as `⌊q + 1/2⌋` (round half towards +∞), which is
JS semantics for all finite inputs.  Division by zero is total in `ℚ`
(yielding 0 where JS would yield `Infinity`/`NaN`); no theorem below
depends on that case.
-/

namespace NBT

/-- JS `Math.round`: round half towards positive infinity.  `Rat.floor`
is the kernel-reducible floor on `ℚ` (equal to `Int.floor` by
`Rat.floor_def'`). -/
def jsRound (q : ℚ) : ℤ := Rat.floor (q + 1/2)

/-- JS `s.slice(0, n)`: the first `n` characters of a string. -/
def jsSlice (s : String) (n : ℕ) : String := String.mk (s.data.take n)

/-- The character for a decimal digit (codes 48–57). -/
def digitChar (d : ℕ) : Char := Char.ofNat (48 + d)

/-- Little-endian base-10 digits, fuel-guarded so that it reduces by
structural recursion (`Nat.digits` is well-founded recursion and does
not evaluate inside `decide` proofs); agrees with `Nat.digits 10` for
sufficient fuel. -/
def natDigitsRev : ℕ → ℕ → List ℕ
  | 0, _ => []
  | _ + 1, 0 => []
  | fuel + 1, n + 1 => ((n + 1) % 10) :: natDigitsRev fuel ((n + 1) / 10)

/-- Little-endian base-10 digits of a natural number. -/
def natDigits (n : ℕ) : List ℕ := natDigitsRev n n

/-- Decimal rendering of a natural number, as JS renders integers. -/
def natRepr (n : ℕ) : String :=
  if n = 0 then "0" else String.mk ((natDigits n).reverse.map digitChar)

/-- Decimal rendering of an integer, as JS renders integers. -/
def intRepr (n : ℤ) : String :=
  if n < 0 then "-" ++ natRepr n.natAbs else natRepr n.natAbs

/-- JS rendering of the number `n / 100` (two decimal places, trailing
zeros and a trailing decimal point dropped, as JS number-to-string does
for these values). -/
def decimalRepr2 (n : ℤ) : String :=
  let sign := if n < 0 then "-" else ""
  let m := n.natAbs
  let ip := m / 100
  let fp := m % 100
  if fp = 0 then sign ++ natRepr ip
  else if fp % 10 = 0 then sign ++ natRepr ip ++ "." ++ natRepr (fp / 10)
  else sign ++ natRepr ip ++ "." ++ (if fp < 10 then "0" else "") ++ natRepr fp

/-- The base64 alphabet used by `btoa`. -/
def base64Chars : List Char :=
  "ABCDEFGHIJKLMNOPQRSTUVWXYZabcdefghijklmnopqrstuvwxyz0123456789+/".toList

/-- The base64 character of a 6-bit group. -/
def b64char (n : ℕ) : Char := base64Chars.getD n 'A'

/-- Base64-encode a list of byte values, three bytes to four characters,
padding the final group with `=`. -/
def b64encode : List ℕ → List Char
  | [] => []
  | [a] =>
    let n := a * 2^16
    [b64char (n / 2^18 % 64), b64char (n / 2^12 % 64), '=', '=']
  | [a, b] =>
    let n := a * 2^16 + b * 2^8
    [b64char (n / 2^18 % 64), b64char (n / 2^12 % 64), b64char (n / 2^6 % 64), '=']
  | a :: b :: c :: rest =>
    let n := a * 2^16 + b * 2^8 + c
    b64char (n / 2^18 % 64) :: b64char (n / 2^12 % 64) :: b64char (n / 2^6 % 64) ::
      b64char (n % 64) :: b64encode rest

/-- JS `btoa`: base64 encoding of a string's character codes (`btoa`
operates on latin-1 byte values; codes are reduced mod 256 to stay total
where JS would throw on larger code points). -/
def btoa (s : String) : String :=
  String.mk (b64encode (s.data.map (fun c => c.toNat % 256)))

/-- `ViewportBounds` from `src/types/enhancement.ts`: a rectangle in the
natural pixel space of a base image (integer fields as produced by the
rounding in `getVisibleImageBounds`). -/
structure ViewportBounds where
  x : ℤ
  y : ℤ
  width : ℤ
  height : ℤ
  deriving DecidableEq, Repr

/-- `CropArea` from `src/types/enhancement.ts`: a viewport rectangle
together with the natural dimensions of its source image. -/
structure CropArea where
  x : ℤ
  y : ℤ
  width : ℤ
  height : ℤ
  sourceWidth : ℚ
  sourceHeight : ℚ
  deriving DecidableEq, Repr

/-- `generateCacheKey` from `src/utils/viewport.ts`:
`btoa(imageSrc.slice(0, 50))` followed by the four viewport fields and
the zoom rounded to two decimals, joined by underscores.
`decimalRepr2 (jsRound (zoomLevel * 100))` renders
`Math.round(zoomLevel * 100) / 100` the way JS interpolates that number
into the template string. -/
def generateCacheKey (imageSrc : String) (viewport : ViewportBounds)
    (zoomLevel : ℚ) : String :=
  btoa (jsSlice imageSrc 50) ++ "_" ++ intRepr viewport.x ++ "_" ++
    intRepr viewport.y ++ "_" ++ intRepr viewport.width ++ "_" ++
    intRepr viewport.height ++ "_" ++ decimalRepr2 (jsRound (zoomLevel * 100))

/-- `shouldEnhanceImage` from `src/utils/viewport.ts`: strict
greater-than at zoom 3.0 (300%). -/
def shouldEnhanceImage (zoomLevel : ℚ) : Bool := zoomLevel > 3

/-- The fields of a `DOMRect` read by the viewport computation. -/
structure DOMRectM where
  left : ℚ
  top : ℚ
  width : ℚ
  height : ℚ
  deriving DecidableEq, Repr

/-- The geometry fields of the `<img>` element read by the viewport
computation: its bounding-rect position, layout size, and natural size. -/
structure ImageElementM where
  rectLeft : ℚ
  rectTop : ℚ
  offsetWidth : ℚ
  offsetHeight : ℚ
  naturalWidth : ℚ
  naturalHeight : ℚ
  deriving DecidableEq, Repr

/-- `getVisibleImageBounds` from `src/utils/viewport.ts`: the visible
part of the displayed image intersected with the container, converted to
natural-image pixel coordinates, rounded, with only `x` and `y` clamped
below at 0. -/
def getVisibleImageBounds (containerRect : DOMRectM) (img : ImageElementM)
    (zoomLevel : ℚ) (panPosition : ℚ × ℚ) : CropArea :=
  let displayedWidth := img.offsetWidth * zoomLevel
  let displayedHeight := img.offsetHeight * zoomLevel
  let imageLeft := img.rectLeft - containerRect.left + panPosition.1
  let imageTop := img.rectTop - containerRect.top + panPosition.2
  let visibleLeft := max 0 (-imageLeft)
  let visibleTop := max 0 (-imageTop)
  let visibleRight := min displayedWidth (containerRect.width - imageLeft)
  let visibleBottom := min displayedHeight (containerRect.height - imageTop)
  let scaleX := img.naturalWidth / img.offsetWidth
  let scaleY := img.naturalHeight / img.offsetHeight
  let cropX := visibleLeft / zoomLevel * scaleX
  let cropY := visibleTop / zoomLevel * scaleY
  let cropWidth := (visibleRight - visibleLeft) / zoomLevel * scaleX
  let cropHeight := (visibleBottom - visibleTop) / zoomLevel * scaleY
  { x := max 0 (jsRound cropX)
    y := max 0 (jsRound cropY)
    width := jsRound cropWidth
    height := jsRound cropHeight
    sourceWidth := img.naturalWidth
    sourceHeight := img.naturalHeight }

/-- `EnhancedImage` from `src/types/enhancement.ts`: one enhancement
record — cache key, produced image payload, the zoom and viewport it was
produced for, the base image it was derived from, and a creation time. -/
structure EnhancedImage where
  id : String
  data : String
  zoomLevel : ℚ
  viewport : ViewportBounds
  originalImageSrc : String
  createdAt : ℕ
  deriving DecidableEq, Repr

/-- `EnhancementState` from `src/types/enhancement.ts`. -/
structure EnhancementState where
  isProcessing : Bool
  error : Option String
  progress : ℕ
  lastProcessedZoom : ℚ
  deriving DecidableEq, Repr

/-- Modelled from the spec: the store of `useImageCache.ts`, whose source
is not among the provided files.  Per the spec it is a map from cache key
to `EnhancedImage` kept in insertion order, with a recency-ordered key
list (head = least recently used) and a size bound. -/
structure ImageCacheStore where
  entries : List (String × EnhancedImage)
  recency : List String
  maxSize : ℕ
  deriving DecidableEq, Repr

/-- Modelled from the spec: `getCachedImage` of `useImageCache.ts`
(source missing) — exact lookup by cache key.  The recency bump on read
is not modelled; nothing below depends on it. -/
def getCachedImage (store : ImageCacheStore) (key : String) :
    Option EnhancedImage :=
  (store.entries.find? (fun e => e.1 = key)).map (fun e => e.2)

/-- Modelled from the spec: `findSimilarCachedImage` of
`useImageCache.ts` (source missing) — linear scan in insertion order for
the first record derived from the same base image whose viewport fields
all differ by at most `tolerance` pixels.  The zoom argument appears in
the call signature in `App.tsx` but the spec's match criterion uses only
the rectangle, so it is unused here. -/
def findSimilarCachedImage (store : ImageCacheStore) (imageSrc : String)
    (viewport : ViewportBounds) (_zoomLevel : ℚ) (tolerance : ℤ) :
    Option EnhancedImage :=
  (store.entries.find? (fun e =>
    e.2.originalImageSrc = imageSrc ∧
      (e.2.viewport.x - viewport.x).natAbs ≤ tolerance.toNat ∧
      (e.2.viewport.y - viewport.y).natAbs ≤ tolerance.toNat ∧
      (e.2.viewport.width - viewport.width).natAbs ≤ tolerance.toNat ∧
      (e.2.viewport.height - viewport.height).natAbs ≤ tolerance.toNat)).map
    (fun e => e.2)

/-- Modelled from the spec: `setCachedImage` of `useImageCache.ts`
(source missing) — insert or overwrite under `record.id`; when the store
is full and the key is new, the least-recently-used key (recency head)
is evicted first; the key then moves to the most-recently-used end. -/
def setCachedImage (store : ImageCacheStore) (record : EnhancedImage) :
    ImageCacheStore :=
  if store.entries.all (fun e => e.1 ≠ record.id) then
    let store1 :=
      if store.maxSize ≤ store.entries.length then
        match store.recency with
        | [] => store
        | lru :: _ =>
          { store with
            entries := store.entries.filter (fun e => e.1 ≠ lru)
            recency := store.recency.filter (fun k => k ≠ lru) }
      else store
    { store1 with
      entries := store1.entries ++ [(record.id, record)]
      recency := store1.recency.filter (fun k => k ≠ record.id) ++ [record.id] }
  else
    { store with
      entries := store.entries.map
        (fun e => if e.1 = record.id then (record.id, record) else e)
      recency := store.recency.filter (fun k => k ≠ record.id) ++ [record.id] }

/-- Modelled from the spec: `clearCache` of `useImageCache.ts` (source
missing) — empty both structures. -/
def clearCache (store : ImageCacheStore) : ImageCacheStore :=
  { store with entries := [], recency := [] }

/-- `ImageHistoryItem` from `src/App.tsx`. -/
structure ImageHistoryItem where
  image : String
  level : ℕ
  timestamp : ℕ
  deriving DecidableEq, Repr

/-- The React state of the history-variant `App` component in
`src/App.tsx` that the enhancement pipeline reads and writes.
`cancelledRequests` records every request id for which
`geminiService.cancelRequest` has been issued (the service source is not
among the provided files; cancellation is modelled as this log). -/
structure AppState where
  originalImageSrc : String
  imageHistory : List ImageHistoryItem
  currentHistoryIndex : ℤ
  zoomLevel : ℚ
  panPosition : ℚ × ℚ
  currentDisplayImage : String
  enhancementState : EnhancementState
  currentRequestId : Option String
  cache : ImageCacheStore
  cancelledRequests : List String
  deriving DecidableEq, Repr

/-- `getCurrentBaseImage` from `src/App.tsx`: the original image when the
cursor is `-1` or the history is empty, otherwise the entry at the
cursor; JS out-of-range indexing and an empty `image` field fall back to
the original (`?.image || originalImageSrc`). -/
def getCurrentBaseImage (s : AppState) : String :=
  if s.currentHistoryIndex = -1 ∨ s.imageHistory.length = 0 then
    s.originalImageSrc
  else if s.currentHistoryIndex < 0 then s.originalImageSrc
  else
    match s.imageHistory.get? s.currentHistoryIndex.toNat with
    | some item =>
      if item.image = "" then s.originalImageSrc else item.image
    | none => s.originalImageSrc

/-- The layout inputs of `calculateFitToHeightZoom` in `src/App.tsx`,
read after the enhanced image has loaded. -/
structure FitGeometry where
  present : Bool
  containerClientHeight : ℚ
  imageOffsetHeight : ℚ
  deriving DecidableEq, Repr

/-- `calculateFitToHeightZoom` from `src/App.tsx`: container height over
displayed image height, clamped to the zoom bounds `[0.1, 10]`; `1` when
the elements are not available. -/
def calculateFitToHeightZoom (fit : FitGeometry) : ℚ :=
  if fit.present = false then 1
  else min (max (fit.containerClientHeight / fit.imageOffsetHeight) (1/10)) 10

/-- The element geometry read by `checkAndEnhanceImage`:
presence of the two refs, the container's bounding rect, and the image
element's geometry. -/
structure Geometry where
  containerPresent : Bool
  imagePresent : Bool
  containerRect : DOMRectM
  image : ImageElementM
  deriving DecidableEq, Repr

/-- The outcome of the remote call `geminiService.enhanceImageCrop`
(service source not among the provided files): the awaited promise either
resolves with image data or rejects with an error message. -/
inductive RemoteResult where
  | success (data : String)
  | failure (message : String)
  deriving DecidableEq, Repr

/-- The settled result of one run of `checkAndEnhanceImage`: the state
after the run (including the deferred fit-zoom reset of the success
path) and whether a remote enhancement call was dispatched. -/
structure CheckOutcome where
  state : AppState
  remoteCalled : Bool
  deriving DecidableEq, Repr

/-- The crop computed inside `checkAndEnhanceImage`. -/
def enhanceCrop (geo : Geometry) (zoomLevel : ℚ) (panPosition : ℚ × ℚ) :
    CropArea :=
  getVisibleImageBounds geo.containerRect geo.image zoomLevel panPosition

/-- The four viewport fields of a crop, as `App.tsx` passes them on. -/
def enhanceViewport (c : CropArea) : ViewportBounds :=
  { x := c.x, y := c.y, width := c.width, height := c.height }

/-- The cache key computed inside `checkAndEnhanceImage`. -/
def enhanceKey (base : String) (c : CropArea) (zoomLevel : ℚ) : String :=
  generateCacheKey base (enhanceViewport c) zoomLevel

/-- `checkAndEnhanceImage` from `src/App.tsx` (history variant), as the
settled state transition of one debounced check: the guard falls back to
the base image at low zoom or missing refs; otherwise exact cache lookup,
then similarity lookup with tolerance 100, then the single-flight guard,
and only then the remote dispatch.  On success the record is cached, the
history appended, the display switched, and (after the 50 ms timeout)
the zoom set to the fit computation and the pan reset; on failure the
state returns to idle with `error` set to `null` as in the source's
catch block. -/
def checkAndEnhanceImage (s : AppState) (geo : Geometry) (zoomLevel : ℚ)
    (remote : RemoteResult) (now : ℕ) (fit : FitGeometry) : CheckOutcome :=
  let base := getCurrentBaseImage s
  if shouldEnhanceImage zoomLevel = false ∨ base = "" ∨
      geo.imagePresent = false ∨ geo.containerPresent = false then
    if zoomLevel ≤ 3 ∧ s.currentDisplayImage ≠ base then
      { state := { s with currentDisplayImage := base }, remoteCalled := false }
    else { state := s, remoteCalled := false }
  else
    let crop := enhanceCrop geo zoomLevel s.panPosition
    let key := enhanceKey base crop zoomLevel
    match getCachedImage s.cache key with
    | some cached =>
      { state := { s with currentDisplayImage := cached.data }
        remoteCalled := false }
    | none =>
      match findSimilarCachedImage s.cache base (enhanceViewport crop)
          zoomLevel 100 with
      | some similar =>
        { state := { s with currentDisplayImage := similar.data }
          remoteCalled := false }
      | none =>
        if s.enhancementState.isProcessing = true then
          { state := s, remoteCalled := false }
        else
          match remote with
          | RemoteResult.success data =>
            let record : EnhancedImage :=
              { id := key, data := data, zoomLevel := zoomLevel
                viewport := enhanceViewport crop, originalImageSrc := base
                createdAt := now }
            { state :=
                { s with
                  cache := setCachedImage s.cache record
                  imageHistory := s.imageHistory ++
                    [{ image := data, level := s.imageHistory.length + 1
                       timestamp := now }]
                  currentHistoryIndex := (s.imageHistory.length : ℤ)
                  currentDisplayImage := data
                  zoomLevel := calculateFitToHeightZoom fit
                  panPosition := (0, 0)
                  enhancementState :=
                    { isProcessing := false, error := none, progress := 100
                      lastProcessedZoom := zoomLevel }
                  currentRequestId := none }
              remoteCalled := true }
          | RemoteResult.failure _ =>
            { state :=
                { s with
                  enhancementState :=
                    { isProcessing := false, error := none, progress := 0
                      lastProcessedZoom := 0 }
                  currentRequestId := none }
              remoteCalled := true }

/-- `handleImageUpload` from `src/App.tsx` (history variant), the state
update performed once the `FileReader` has loaded the new image: reset
display, history, cursor, zoom, pan, cache and enhancement state.  Note
that the source neither cancels the current request nor clears
`currentRequestId`. -/
def handleImageUpload (s : AppState) (newImageSrc : String) : AppState :=
  { s with
    originalImageSrc := newImageSrc
    currentDisplayImage := newImageSrc
    imageHistory := []
    currentHistoryIndex := -1
    zoomLevel := 1
    panPosition := (0, 0)
    cache := clearCache s.cache
    enhancementState :=
      { isProcessing := false, error := none, progress := 0
        lastProcessedZoom := 0 } }

/-- The back-to-upload button handler from `src/App.tsx` (history
variant), which — unlike `handleImageUpload` — does cancel the current
request before clearing it. -/
def handleBackToUpload (s : AppState) : AppState :=
  { s with
    originalImageSrc := ""
    currentDisplayImage := ""
    imageHistory := []
    currentHistoryIndex := -1
    zoomLevel := 1
    panPosition := (0, 0)
    cache := clearCache s.cache
    cancelledRequests :=
      match s.currentRequestId with
      | some id => s.cancelledRequests ++ [id]
      | none => s.cancelledRequests
    currentRequestId := none
    enhancementState :=
      { isProcessing := false, error := none, progress := 0
        lastProcessedZoom := 0 } }

/-- `addToHistory` from `src/App.tsx` in isolation: append a new item of
level `length + 1` at the tail and move the cursor to the new last
index. -/
def addToHistory (history : List ImageHistoryItem) (_cursor : ℤ)
    (enhancedImage : String) (now : ℕ) : List ImageHistoryItem × ℤ :=
  (history ++ [{ image := enhancedImage, level := history.length + 1
                 timestamp := now }],
   (history.length : ℤ))

/-- The React state of the no-history `App` variant
(`src/unnamed/part_001`). -/
structure AppStateV1 where
  imageSrc : String
  zoomLevel : ℚ
  panPosition : ℚ × ℚ
  currentDisplayImage : String
  enhancementState : EnhancementState
  currentRequestId : Option String
  cache : ImageCacheStore
  deriving DecidableEq, Repr

/-- The settled result of one run of the no-history variant's
`checkAndEnhanceImage`. -/
structure CheckOutcomeV1 where
  state : AppStateV1
  remoteCalled : Bool
  deriving DecidableEq, Repr

/-- `checkAndEnhanceImage` from `src/unnamed/part_001` (no-history
variant).  Identical control flow to the history variant, but success
only switches the display (no history, no zoom reset), and the catch
block surfaces the thrown error's message in `error`. -/
def checkAndEnhanceImageV1 (s : AppStateV1) (geo : Geometry)
    (zoomLevel : ℚ) (remote : RemoteResult) (now : ℕ) : CheckOutcomeV1 :=
  if shouldEnhanceImage zoomLevel = false ∨ s.imageSrc = "" ∨
      geo.imagePresent = false ∨ geo.containerPresent = false then
    if zoomLevel ≤ 3 ∧ s.currentDisplayImage ≠ s.imageSrc then
      { state := { s with currentDisplayImage := s.imageSrc }
        remoteCalled := false }
    else { state := s, remoteCalled := false }
  else
    let crop := enhanceCrop geo zoomLevel s.panPosition
    let key := enhanceKey s.imageSrc crop zoomLevel
    match getCachedImage s.cache key with
    | some cached =>
      { state := { s with currentDisplayImage := cached.data }
        remoteCalled := false }
    | none =>
      match findSimilarCachedImage s.cache s.imageSrc (enhanceViewport crop)
          zoomLevel 100 with
      | some similar =>
        { state := { s with currentDisplayImage := similar.data }
          remoteCalled := false }
      | none =>
        if s.enhancementState.isProcessing = true then
          { state := s, remoteCalled := false }
        else
          match remote with
          | RemoteResult.success data =>
            let record : EnhancedImage :=
              { id := key, data := data, zoomLevel := zoomLevel
                viewport := enhanceViewport crop
                originalImageSrc := s.imageSrc, createdAt := now }
            { state :=
                { s with
                  cache := setCachedImage s.cache record
                  currentDisplayImage := data
                  enhancementState :=
                    { isProcessing := false, error := none, progress := 100
                      lastProcessedZoom := zoomLevel }
                  currentRequestId := none }
              remoteCalled := true }
          | RemoteResult.failure message =>
            { state :=
                { s with
                  enhancementState :=
                    { isProcessing := false, error := some message
                      progress := 0, lastProcessedZoom := 0 }
                  currentRequestId := none }
              remoteCalled := true }

/-! Helper lemmas: decimal renderings are injective, string appends
cancel, and the cache store returns what was just put. -/

theorem str_data_append (a b : String) : (a ++ b).data = a.data ++ b.data := rfl

theorem underscore_data : ("_" : String).data = ['_'] := rfl

theorem digitChar_inj {d₁ d₂ : ℕ} (h₁ : d₁ < 10) (h₂ : d₂ < 10)
    (h : digitChar d₁ = digitChar d₂) : d₁ = d₂ := by
  interval_cases d₁ <;> interval_cases d₂ <;>
    first
      | rfl
      | exact absurd h (by decide)

theorem digitChar_toNat {d : ℕ} (h : d < 10) : (digitChar d).toNat = 48 + d := by
  interval_cases d <;> decide

theorem natDigitsRev_eq_digits :
    ∀ (fuel n : ℕ), n ≤ fuel → natDigitsRev fuel n = Nat.digits 10 n
  | 0, 0, _ => by simp [natDigitsRev]
  | 0, _ + 1, h => absurd h (by omega)
  | _ + 1, 0, _ => by simp [natDigitsRev]
  | fuel + 1, n + 1, h => by
    rw [natDigitsRev]
    rw [natDigitsRev_eq_digits fuel ((n + 1) / 10) (by omega)]
    exact (Nat.digits_def' (by norm_num) (Nat.succ_pos n)).symm

theorem natDigits_eq_digits (n : ℕ) : natDigits n = Nat.digits 10 n :=
  natDigitsRev_eq_digits n n le_rfl

theorem map_digitChar_inj :
    ∀ (l₁ l₂ : List ℕ), (∀ d ∈ l₁, d < 10) → (∀ d ∈ l₂, d < 10) →
      l₁.map digitChar = l₂.map digitChar → l₁ = l₂
  | [], [], _, _, _ => rfl
  | [], _ :: _, _, _, h => by simp at h
  | _ :: _, [], _, _, h => by simp at h
  | d₁ :: t₁, d₂ :: t₂, h₁, h₂, h => by
    simp only [List.map_cons, List.cons.injEq] at h
    have hd := digitChar_inj (h₁ d₁ (by simp)) (h₂ d₂ (by simp)) h.1
    have ht := map_digitChar_inj t₁ t₂ (fun d hd => h₁ d (by simp [hd]))
      (fun d hd => h₂ d (by simp [hd])) h.2
    rw [hd, ht]

theorem natRepr_inj {m n : ℕ} (h : natRepr m = natRepr n) : m = n := by
  have hdata := congrArg String.data h
  unfold natRepr at hdata
  simp only [natDigits_eq_digits] at hdata
  have hlt : ∀ k : ℕ, ∀ d ∈ (Nat.digits 10 k).reverse, d < 10 := fun k d hd =>
    Nat.digits_lt_base (by norm_num) (List.mem_reverse.mp hd)
  by_cases hm : m = 0 <;> by_cases hn : n = 0
  · rw [hm, hn]
  · rw [if_pos hm, if_neg hn] at hdata
    have h0 : List.map digitChar [0] = List.map digitChar (Nat.digits 10 n).reverse := by
      simpa using hdata
    have := map_digitChar_inj [0] (Nat.digits 10 n).reverse (by simp) (hlt n) h0
    have hrev : Nat.digits 10 n = [0] := by
      have := congrArg List.reverse this
      simpa using this.symm
    have : n = 0 := by
      have := Nat.ofDigits_digits 10 n
      rw [hrev] at this
      simpa [Nat.ofDigits] using this.symm
    exact absurd this hn
  · rw [if_neg hm, if_pos hn] at hdata
    have h0 : List.map digitChar (Nat.digits 10 m).reverse = List.map digitChar [0] := by
      simpa using hdata
    have := map_digitChar_inj (Nat.digits 10 m).reverse [0] (hlt m) (by simp) h0
    have hrev : Nat.digits 10 m = [0] := by
      have := congrArg List.reverse this
      simpa using this
    have : m = 0 := by
      have := Nat.ofDigits_digits 10 m
      rw [hrev] at this
      simpa [Nat.ofDigits] using this.symm
    exact absurd this hm
  · rw [if_neg hm, if_neg hn] at hdata
    have h0 : List.map digitChar (Nat.digits 10 m).reverse =
        List.map digitChar (Nat.digits 10 n).reverse := by simpa using hdata
    have := map_digitChar_inj _ _ (hlt m) (hlt n) h0
    have hdig : Nat.digits 10 m = Nat.digits 10 n := by
      have := congrArg List.reverse this
      simpa using this
    calc m = Nat.ofDigits 10 (Nat.digits 10 m) := (Nat.ofDigits_digits 10 m).symm
    _ = Nat.ofDigits 10 (Nat.digits 10 n) := by rw [hdig]
    _ = n := Nat.ofDigits_digits 10 n

theorem natRepr_chars {n : ℕ} {c : Char} (hc : c ∈ (natRepr n).data) :
    48 ≤ c.toNat ∧ c.toNat ≤ 57 := by
  unfold natRepr at hc
  by_cases hn : n = 0
  · rw [if_pos hn] at hc
    simp only [show ("0" : String).data = ['0'] from rfl, List.mem_singleton] at hc
    rw [hc]
    decide
  · rw [if_neg hn] at hc
    simp only [String.mk, natDigits_eq_digits] at hc
    obtain ⟨d, hd, rfl⟩ := List.mem_map.mp hc
    have hdlt : d < 10 :=
      Nat.digits_lt_base (by norm_num) (List.mem_reverse.mp hd)
    rw [digitChar_toNat hdlt]
    omega

theorem intRepr_inj {m n : ℤ} (h : intRepr m = intRepr n) : m = n := by
  unfold intRepr at h
  by_cases hm : m < 0 <;> by_cases hn : n < 0
  · rw [if_pos hm, if_pos hn] at h
    have hdata := congrArg String.data h
    simp only [str_data_append, show ("-" : String).data = ['-'] from rfl,
      List.singleton_append, List.cons.injEq, true_and] at hdata
    have := natRepr_inj (String.ext hdata)
    omega
  · rw [if_pos hm, if_neg hn] at h
    have hdata := congrArg String.data h
    simp only [str_data_append, show ("-" : String).data = ['-'] from rfl,
      List.singleton_append] at hdata
    have hmem : ('-' : Char) ∈ (natRepr n.natAbs).data := by
      rw [← hdata]; simp
    have := natRepr_chars hmem
    exact absurd this (by decide)
  · rw [if_neg hm, if_pos hn] at h
    have hdata := congrArg String.data h
    simp only [str_data_append, show ("-" : String).data = ['-'] from rfl,
      List.singleton_append] at hdata
    have hmem : ('-' : Char) ∈ (natRepr m.natAbs).data := by
      rw [hdata]; simp
    have := natRepr_chars hmem
    exact absurd this (by decide)
  · rw [if_neg hm, if_neg hn] at h
    have := natRepr_inj h
    omega

theorem generateCacheKey_data (img : String) (v : ViewportBounds) (z : ℚ) :
    (generateCacheKey img v z).data =
      (btoa (jsSlice img 50)).data ++ '_' :: ((intRepr v.x).data ++
        '_' :: ((intRepr v.y).data ++ '_' :: ((intRepr v.width).data ++
          '_' :: ((intRepr v.height).data ++
            '_' :: (decimalRepr2 (jsRound (z * 100))).data)))) := by
  simp [generateCacheKey, str_data_append, underscore_data, List.append_assoc]

theorem generateCacheKey_x_inj {img : String} {y w h : ℤ} {z : ℚ} {x₁ x₂ : ℤ}
    (hk : generateCacheKey img ⟨x₁, y, w, h⟩ z = generateCacheKey img ⟨x₂, y, w, h⟩ z) :
    x₁ = x₂ := by
  have hd := congrArg String.data hk
  rw [generateCacheKey_data, generateCacheKey_data] at hd
  have h1 := List.append_cancel_left hd
  have h2 := (List.cons.inj h1).2
  exact intRepr_inj (String.ext (List.append_cancel_right h2))

theorem generateCacheKey_y_inj {img : String} {x w h : ℤ} {z : ℚ} {y₁ y₂ : ℤ}
    (hk : generateCacheKey img ⟨x, y₁, w, h⟩ z = generateCacheKey img ⟨x, y₂, w, h⟩ z) :
    y₁ = y₂ := by
  have hd := congrArg String.data hk
  rw [generateCacheKey_data, generateCacheKey_data] at hd
  have h1 := (List.cons.inj (List.append_cancel_left hd)).2
  have h2 := (List.cons.inj (List.append_cancel_left h1)).2
  exact intRepr_inj (String.ext (List.append_cancel_right h2))

theorem generateCacheKey_width_inj {img : String} {x y h : ℤ} {z : ℚ} {w₁ w₂ : ℤ}
    (hk : generateCacheKey img ⟨x, y, w₁, h⟩ z = generateCacheKey img ⟨x, y, w₂, h⟩ z) :
    w₁ = w₂ := by
  have hd := congrArg String.data hk
  rw [generateCacheKey_data, generateCacheKey_data] at hd
  have h1 := (List.cons.inj (List.append_cancel_left hd)).2
  have h2 := (List.cons.inj (List.append_cancel_left h1)).2
  have h3 := (List.cons.inj (List.append_cancel_left h2)).2
  exact intRepr_inj (String.ext (List.append_cancel_right h3))

theorem generateCacheKey_height_inj {img : String} {x y w : ℤ} {z : ℚ} {h₁ h₂ : ℤ}
    (hk : generateCacheKey img ⟨x, y, w, h₁⟩ z = generateCacheKey img ⟨x, y, w, h₂⟩ z) :
    h₁ = h₂ := by
  have hd := congrArg String.data hk
  rw [generateCacheKey_data, generateCacheKey_data] at hd
  have k1 := (List.cons.inj (List.append_cancel_left hd)).2
  have k2 := (List.cons.inj (List.append_cancel_left k1)).2
  have k3 := (List.cons.inj (List.append_cancel_left k2)).2
  have k4 := (List.cons.inj (List.append_cancel_left k3)).2
  exact intRepr_inj (String.ext (List.append_cancel_right k4))

theorem generateCacheKey_zoom_congr {img : String} {v : ViewportBounds} {z₁ z₂ : ℚ}
    (hz : jsRound (z₁ * 100) = jsRound (z₂ * 100)) :
    generateCacheKey img v z₁ = generateCacheKey img v z₂ := by
  unfold generateCacheKey
  rw [hz]

theorem generateCacheKey_prefix_congr {img₁ img₂ : String} {v : ViewportBounds}
    {z : ℚ} (hp : img₁.data.take 50 = img₂.data.take 50) :
    generateCacheKey img₁ v z = generateCacheKey img₂ v z := by
  unfold generateCacheKey jsSlice
  rw [hp]

theorem find?_key_append_single {l : List (String × EnhancedImage)} {k : String}
    {r : EnhancedImage} (hl : ∀ e ∈ l, e.1 ≠ k) :
    (l ++ [(k, r)]).find? (fun e => e.1 = k) = some (k, r) := by
  induction l with
  | nil => simp [List.find?]
  | cons e t ih =>
    have he : (decide (e.1 = k)) = false := by
      simpa using hl e (by simp)
    simp only [List.cons_append, List.find?, he]
    exact ih (fun x hx => hl x (by simp [hx]))

theorem find?_key_overwrite {l : List (String × EnhancedImage)} {k : String}
    {r : EnhancedImage} (hl : ∃ e ∈ l, e.1 = k) :
    (l.map (fun e => if e.1 = k then (k, r) else e)).find? (fun e => e.1 = k) =
      some (k, r) := by
  induction l with
  | nil => simp at hl
  | cons e t ih =>
    by_cases he : e.1 = k
    · simp [List.find?, he]
    · have hed : (decide (e.1 = k)) = false := by simpa using he
      simp only [List.map_cons, if_neg he, List.find?, hed]
      rcases hl with ⟨x, hx, hxk⟩
      rcases List.mem_cons.mp hx with rfl | hxt
      · exact absurd hxk he
      · exact ih ⟨x, hxt, hxk⟩

theorem getCachedImage_setCachedImage (store : ImageCacheStore)
    (r : EnhancedImage) :
    getCachedImage (setCachedImage store r) r.id = some r := by
  unfold getCachedImage setCachedImage
  by_cases hnew : store.entries.all (fun e => e.1 ≠ r.id) = true
  · have hno : ∀ e ∈ store.entries, e.1 ≠ r.id := by
      intro e he
      have := List.all_eq_true.mp hnew e he
      simpa using this
    rw [if_pos hnew]
    by_cases hfull : store.maxSize ≤ store.entries.length
    · rw [if_pos hfull]
      cases hrec : store.recency with
      | nil =>
        simp only []
        rw [find?_key_append_single hno]
        rfl
      | cons lru rest =>
        simp only []
        have hno' : ∀ e ∈ store.entries.filter (fun e => e.1 ≠ lru),
            e.1 ≠ r.id := fun e he => hno e (List.mem_of_mem_filter he)
        rw [find?_key_append_single hno']
        rfl
    · rw [if_neg hfull]
      rw [find?_key_append_single hno]
      rfl
  · have hex : ∃ e ∈ store.entries, e.1 = r.id := by
      rcases List.all_eq_false.mp (Bool.eq_false_iff.mpr hnew) with ⟨e, he, hne⟩
      exact ⟨e, he, by simpa using hne⟩
    rw [if_neg hnew]
    rw [find?_key_overwrite hex]
    rfl

/-! Branch lemmas for `checkAndEnhanceImage`: one equation per control
path of the source function. -/

theorem checkAndEnhance_guard {s : AppState} {geo : Geometry}
    {zoomLevel : ℚ} {remote : RemoteResult} {now : ℕ} {fit : FitGeometry}
    (h : shouldEnhanceImage zoomLevel = false ∨ getCurrentBaseImage s = "" ∨
      geo.imagePresent = false ∨ geo.containerPresent = false) :
    checkAndEnhanceImage s geo zoomLevel remote now fit =
      if zoomLevel ≤ 3 ∧ s.currentDisplayImage ≠ getCurrentBaseImage s then
        { state := { s with currentDisplayImage := getCurrentBaseImage s }
          remoteCalled := false }
      else { state := s, remoteCalled := false } := by
  unfold checkAndEnhanceImage
  rw [if_pos h]

theorem checkAndEnhance_exactHit {s : AppState} {geo : Geometry}
    {zoomLevel : ℚ} {remote : RemoteResult} {now : ℕ} {fit : FitGeometry}
    {cached : EnhancedImage}
    (h1 : shouldEnhanceImage zoomLevel = true)
    (h2 : getCurrentBaseImage s ≠ "")
    (h3 : geo.imagePresent = true) (h4 : geo.containerPresent = true)
    (hhit : getCachedImage s.cache
      (enhanceKey (getCurrentBaseImage s) (enhanceCrop geo zoomLevel s.panPosition)
        zoomLevel) = some cached) :
    checkAndEnhanceImage s geo zoomLevel remote now fit =
      { state := { s with currentDisplayImage := cached.data }
        remoteCalled := false } := by
  unfold checkAndEnhanceImage
  rw [if_neg (by simp [h1, h2, h3, h4])]
  simp only [hhit]

theorem checkAndEnhance_similarHit {s : AppState} {geo : Geometry}
    {zoomLevel : ℚ} {remote : RemoteResult} {now : ℕ} {fit : FitGeometry}
    {similar : EnhancedImage}
    (h1 : shouldEnhanceImage zoomLevel = true)
    (h2 : getCurrentBaseImage s ≠ "")
    (h3 : geo.imagePresent = true) (h4 : geo.containerPresent = true)
    (hmiss : getCachedImage s.cache
      (enhanceKey (getCurrentBaseImage s) (enhanceCrop geo zoomLevel s.panPosition)
        zoomLevel) = none)
    (hsim : findSimilarCachedImage s.cache (getCurrentBaseImage s)
      (enhanceViewport (enhanceCrop geo zoomLevel s.panPosition)) zoomLevel 100 =
        some similar) :
    checkAndEnhanceImage s geo zoomLevel remote now fit =
      { state := { s with currentDisplayImage := similar.data }
        remoteCalled := false } := by
  unfold checkAndEnhanceImage
  rw [if_neg (by simp [h1, h2, h3, h4])]
  simp only [hmiss, hsim]

theorem checkAndEnhance_processing {s : AppState} {geo : Geometry}
    {zoomLevel : ℚ} {remote : RemoteResult} {now : ℕ} {fit : FitGeometry}
    (h1 : shouldEnhanceImage zoomLevel = true)
    (h2 : getCurrentBaseImage s ≠ "")
    (h3 : geo.imagePresent = true) (h4 : geo.containerPresent = true)
    (hmiss : getCachedImage s.cache
      (enhanceKey (getCurrentBaseImage s) (enhanceCrop geo zoomLevel s.panPosition)
        zoomLevel) = none)
    (hsim : findSimilarCachedImage s.cache (getCurrentBaseImage s)
      (enhanceViewport (enhanceCrop geo zoomLevel s.panPosition)) zoomLevel 100 =
        none)
    (hproc : s.enhancementState.isProcessing = true) :
    checkAndEnhanceImage s geo zoomLevel remote now fit =
      { state := s, remoteCalled := false } := by
  unfold checkAndEnhanceImage
  rw [if_neg (by simp [h1, h2, h3, h4])]
  simp only [hmiss, hsim, hproc, if_pos]

theorem checkAndEnhance_success {s : AppState} {geo : Geometry}
    {zoomLevel : ℚ} {data : String} {now : ℕ} {fit : FitGeometry}
    (h1 : shouldEnhanceImage zoomLevel = true)
    (h2 : getCurrentBaseImage s ≠ "")
    (h3 : geo.imagePresent = true) (h4 : geo.containerPresent = true)
    (hmiss : getCachedImage s.cache
      (enhanceKey (getCurrentBaseImage s) (enhanceCrop geo zoomLevel s.panPosition)
        zoomLevel) = none)
    (hsim : findSimilarCachedImage s.cache (getCurrentBaseImage s)
      (enhanceViewport (enhanceCrop geo zoomLevel s.panPosition)) zoomLevel 100 =
        none)
    (hproc : s.enhancementState.isProcessing = false) :
    checkAndEnhanceImage s geo zoomLevel (RemoteResult.success data) now fit =
      { state :=
          { s with
            cache := setCachedImage s.cache
              { id := enhanceKey (getCurrentBaseImage s)
                  (enhanceCrop geo zoomLevel s.panPosition) zoomLevel
                data := data, zoomLevel := zoomLevel
                viewport := enhanceViewport (enhanceCrop geo zoomLevel s.panPosition)
                originalImageSrc := getCurrentBaseImage s, createdAt := now }
            imageHistory := s.imageHistory ++
              [{ image := data, level := s.imageHistory.length + 1
                 timestamp := now }]
            currentHistoryIndex := (s.imageHistory.length : ℤ)
            currentDisplayImage := data
            zoomLevel := calculateFitToHeightZoom fit
            panPosition := (0, 0)
            enhancementState :=
              { isProcessing := false, error := none, progress := 100
                lastProcessedZoom := zoomLevel }
            currentRequestId := none }
        remoteCalled := true } := by
  unfold checkAndEnhanceImage
  rw [if_neg (by simp [h1, h2, h3, h4])]
  simp only [hmiss, hsim, hproc, Bool.false_eq_true, if_false]

theorem checkAndEnhance_failure {s : AppState} {geo : Geometry}
    {zoomLevel : ℚ} {message : String} {now : ℕ} {fit : FitGeometry}
    (h1 : shouldEnhanceImage zoomLevel = true)
    (h2 : getCurrentBaseImage s ≠ "")
    (h3 : geo.imagePresent = true) (h4 : geo.containerPresent = true)
    (hmiss : getCachedImage s.cache
      (enhanceKey (getCurrentBaseImage s) (enhanceCrop geo zoomLevel s.panPosition)
        zoomLevel) = none)
    (hsim : findSimilarCachedImage s.cache (getCurrentBaseImage s)
      (enhanceViewport (enhanceCrop geo zoomLevel s.panPosition)) zoomLevel 100 =
        none)
    (hproc : s.enhancementState.isProcessing = false) :
    checkAndEnhanceImage s geo zoomLevel (RemoteResult.failure message) now fit =
      { state :=
          { s with
            enhancementState :=
              { isProcessing := false, error := none, progress := 0
                lastProcessedZoom := 0 }
            currentRequestId := none }
        remoteCalled := true } := by
  unfold checkAndEnhanceImage
  rw [if_neg (by simp [h1, h2, h3, h4])]
  simp only [hmiss, hsim, hproc, Bool.false_eq_true, if_false]

/-! Concrete fixtures used by the witnesses and counterexamples. -/

def exDOMRect : DOMRectM := ⟨0, 0, 800, 600⟩

def exImage : ImageElementM := ⟨0, 0, 400, 300, 400, 300⟩

def exGeometry : Geometry := ⟨true, true, exDOMRect, exImage⟩

def exFit : FitGeometry := ⟨true, 600, 300⟩

def emptyCache : ImageCacheStore := ⟨[], [], 20⟩

def idleEnhancement : EnhancementState := ⟨false, none, 0, 0⟩

def busyEnhancement : EnhancementState := ⟨true, none, 40, 4⟩

def idleState : AppState :=
  { originalImageSrc := "img", imageHistory := [], currentHistoryIndex := -1
    zoomLevel := 4, panPosition := (0, 0), currentDisplayImage := "img"
    enhancementState := idleEnhancement, currentRequestId := none
    cache := emptyCache, cancelledRequests := [] }

def busyState : AppState :=
  { idleState with
    enhancementState := busyEnhancement
    currentRequestId := some "req-1" }

def c3State : AppState :=
  { idleState with
    imageHistory := [{ image := "lvl1", level := 1, timestamp := 1 }]
    currentHistoryIndex := -1 }

def c5crop : CropArea := enhanceCrop exGeometry 4 (0, 0)

def c5key : String := enhanceKey "img" c5crop 4

def c5record : EnhancedImage :=
  ⟨c5key, "cached-data", 4, enhanceViewport c5crop, "img", 0⟩

def c5State : AppState :=
  { idleState with cache := ⟨[(c5key, c5record)], [c5key], 20⟩ }

def c7State : AppState := { idleState with panPosition := (-1600, 0) }

def c9State : AppState :=
  { idleState with
    currentRequestId := some "req-9"
    enhancementState := busyEnhancement }

def v1State : AppStateV1 :=
  ⟨"img", 4, (0, 0), "img", idleEnhancement, none, emptyCache⟩

def imgA : String := "data:image/png;base64,AAAAAAAAAAAAAAAAAAAAAAAAAAAAXYZ1"

def imgB : String := "data:image/png;base64,AAAAAAAAAAAAAAAAAAAAAAAAAAAAQRS2"

section ClaimTheorems

/- Batteries marks the arithmetic on `Rat` irreducible; concrete
evaluation by `decide`/`rfl` needs it unfoldable. -/
attribute [local semireducible] Rat.add Rat.mul Rat.sub Rat.inv Rat.ofScientific

/-- C1: single-flight — for every state in which `isProcessing` is true,
a newly fired enhancement check dispatches no remote call, so at most
one remote enhancement call is outstanding at any time. -/
theorem C1_single_flight (s : AppState) (geo : Geometry) (zoomLevel : ℚ)
    (remote : RemoteResult) (now : ℕ) (fit : FitGeometry)
    (h : s.enhancementState.isProcessing = true) :
    (checkAndEnhanceImage s geo zoomLevel remote now fit).remoteCalled = false := by
  by_cases hg : shouldEnhanceImage zoomLevel = false ∨
      getCurrentBaseImage s = "" ∨ geo.imagePresent = false ∨
      geo.containerPresent = false
  · rw [checkAndEnhance_guard hg]
    split
    · rfl
    · rfl
  · simp only [not_or, Bool.not_eq_false] at hg
    obtain ⟨h1, h2, h3, h4⟩ := hg
    cases hx : getCachedImage s.cache
        (enhanceKey (getCurrentBaseImage s)
          (enhanceCrop geo zoomLevel s.panPosition) zoomLevel) with
    | some cached => rw [checkAndEnhance_exactHit h1 h2 h3 h4 hx]
    | none =>
      cases hy : findSimilarCachedImage s.cache (getCurrentBaseImage s)
          (enhanceViewport (enhanceCrop geo zoomLevel s.panPosition)) zoomLevel
            100 with
      | some similar => rw [checkAndEnhance_similarHit h1 h2 h3 h4 hx hy]
      | none => rw [checkAndEnhance_processing h1 h2 h3 h4 hx hy h]

/-- Witness for C1: in a concrete processing state (zoom 4, empty cache)
the check dispatches no remote call. -/
theorem C1_single_flight_witness :
    busyState.enhancementState.isProcessing = true ∧
      (checkAndEnhanceImage busyState exGeometry 4 (RemoteResult.success "d")
        0 exFit).remoteCalled = false :=
  ⟨rfl, C1_single_flight busyState exGeometry 4 (RemoteResult.success "d")
    0 exFit rfl⟩

/-- C2: on remote failure the history variant of `checkAndEnhanceImage`
returns to idle and leaves the displayed image, the history and the
cache unchanged, but its catch block stores `error := none`, so no error
message is surfaced — even though the same file renders
`enhancementState.error` when it is non-null; the no-history variant's
catch block does store the thrown message, as the claim describes. -/
theorem C2_failure_surfaces_no_error :
    (checkAndEnhanceImage idleState exGeometry 4
      (RemoteResult.failure "network error") 0 exFit).remoteCalled = true ∧
    (checkAndEnhanceImage idleState exGeometry 4
      (RemoteResult.failure "network error") 0
        exFit).state.enhancementState.isProcessing = false ∧
    (checkAndEnhanceImage idleState exGeometry 4
      (RemoteResult.failure "network error") 0
        exFit).state.enhancementState.error = none ∧
    (checkAndEnhanceImage idleState exGeometry 4
      (RemoteResult.failure "network error") 0
        exFit).state.currentDisplayImage = idleState.currentDisplayImage ∧
    (checkAndEnhanceImage idleState exGeometry 4
      (RemoteResult.failure "network error") 0
        exFit).state.imageHistory = idleState.imageHistory ∧
    (checkAndEnhanceImage idleState exGeometry 4
      (RemoteResult.failure "network error") 0
        exFit).state.cache = idleState.cache ∧
    (checkAndEnhanceImageV1 v1State exGeometry 4
      (RemoteResult.failure "network error")
        0).state.enhancementState.error = some "network error" ∧
    (checkAndEnhanceImageV1 v1State exGeometry 4
      (RemoteResult.failure "network error")
        0).state.currentDisplayImage = v1State.currentDisplayImage ∧
    (checkAndEnhanceImageV1 v1State exGeometry 4
      (RemoteResult.failure "network error") 0).state.cache = v1State.cache := by
  decide

/-- C3: on remote success the record is stored in the cache, the history
gains exactly one entry at the tail with level = old length + 1
(regardless of the cursor position), the cursor moves to the new last
index, the display switches to the result, and zoom/pan reset to the
fit-to-height baseline. -/
theorem C3_success_appends_at_tail (s : AppState) (geo : Geometry)
    (zoomLevel : ℚ) (data : String) (now : ℕ) (fit : FitGeometry)
    (h1 : shouldEnhanceImage zoomLevel = true)
    (h2 : getCurrentBaseImage s ≠ "")
    (h3 : geo.imagePresent = true) (h4 : geo.containerPresent = true)
    (hmiss : getCachedImage s.cache
      (enhanceKey (getCurrentBaseImage s) (enhanceCrop geo zoomLevel s.panPosition)
        zoomLevel) = none)
    (hsim : findSimilarCachedImage s.cache (getCurrentBaseImage s)
      (enhanceViewport (enhanceCrop geo zoomLevel s.panPosition)) zoomLevel 100 =
        none)
    (hproc : s.enhancementState.isProcessing = false) :
    (checkAndEnhanceImage s geo zoomLevel (RemoteResult.success data) now
        fit).state.imageHistory =
      s.imageHistory ++
        [{ image := data, level := s.imageHistory.length + 1, timestamp := now }] ∧
    (checkAndEnhanceImage s geo zoomLevel (RemoteResult.success data) now
        fit).state.imageHistory.length = s.imageHistory.length + 1 ∧
    (checkAndEnhanceImage s geo zoomLevel (RemoteResult.success data) now
        fit).state.currentHistoryIndex = (s.imageHistory.length : ℤ) ∧
    (checkAndEnhanceImage s geo zoomLevel (RemoteResult.success data) now
        fit).state.currentDisplayImage = data ∧
    (checkAndEnhanceImage s geo zoomLevel (RemoteResult.success data) now
        fit).state.zoomLevel = calculateFitToHeightZoom fit ∧
    (checkAndEnhanceImage s geo zoomLevel (RemoteResult.success data) now
        fit).state.panPosition = (0, 0) ∧
    getCachedImage
      (checkAndEnhanceImage s geo zoomLevel (RemoteResult.success data) now
        fit).state.cache
      (enhanceKey (getCurrentBaseImage s) (enhanceCrop geo zoomLevel s.panPosition)
        zoomLevel) =
      some
        { id := enhanceKey (getCurrentBaseImage s)
            (enhanceCrop geo zoomLevel s.panPosition) zoomLevel
          data := data, zoomLevel := zoomLevel
          viewport := enhanceViewport (enhanceCrop geo zoomLevel s.panPosition)
          originalImageSrc := getCurrentBaseImage s, createdAt := now } ∧
    (checkAndEnhanceImage s geo zoomLevel (RemoteResult.success data) now
        fit).remoteCalled = true ∧
    ((checkAndEnhanceImage s geo zoomLevel (RemoteResult.success data) now
        fit).state.imageHistory,
     (checkAndEnhanceImage s geo zoomLevel (RemoteResult.success data) now
        fit).state.currentHistoryIndex) =
      addToHistory s.imageHistory s.currentHistoryIndex data now := by
  rw [checkAndEnhance_success h1 h2 h3 h4 hmiss hsim hproc]
  refine ⟨rfl, by simp, rfl, rfl, rfl, rfl, ?_, rfl, rfl⟩
  exact getCachedImage_setCachedImage s.cache _

/-- Witness for C3: a concrete success on a state whose cursor sits at
the original (-1) while one history level exists — the append still goes
to the tail, the new entry has level 2, and the cursor jumps to index 1. -/
theorem C3_success_appends_at_tail_witness :
    shouldEnhanceImage 4 = true ∧
    (checkAndEnhanceImage c3State exGeometry 4 (RemoteResult.success "enh") 5
        exFit).state.imageHistory =
      [{ image := "lvl1", level := 1, timestamp := 1 },
       { image := "enh", level := 2, timestamp := 5 }] ∧
    (checkAndEnhanceImage c3State exGeometry 4 (RemoteResult.success "enh") 5
        exFit).state.currentHistoryIndex = 1 ∧
    (checkAndEnhanceImage c3State exGeometry 4 (RemoteResult.success "enh") 5
        exFit).remoteCalled = true := by
  have h := C3_success_appends_at_tail c3State exGeometry 4 "enh" 5 exFit
    (by decide) (by decide) rfl rfl (by decide) (by decide) rfl
  exact ⟨by decide, h.1, h.2.2.1, h.2.2.2.2.2.2.2.1⟩

/-- C4: the enhancement-trigger predicate is the strict comparison
`zoom > 3.0`; in particular it is false at 3.00 and true at 3.0001. -/
theorem C4_threshold_strict :
    (∀ z : ℚ, shouldEnhanceImage z = true ↔ 3 < z) ∧
    shouldEnhanceImage 3 = false ∧
    shouldEnhanceImage (30001/10000) = true := by
  refine ⟨fun z => ?_, by decide, by decide⟩
  simp [shouldEnhanceImage]

/-- Witness for C4: the predicate evaluated at zoom 3.5. -/
theorem C4_threshold_strict_witness :
    (3 : ℚ) < 7/2 ∧ shouldEnhanceImage (7/2) = true :=
  ⟨by decide, (C4_threshold_strict.1 (7/2)).mpr (by decide)⟩

/-- C5: once the guard passes, an exact cache hit displays the cached
image with no remote call and no history append; on an exact miss a
similarity hit (tolerance 100) does the same; and a remote call is
dispatched only when both lookups miss (and no request is processing). -/
theorem C5_cache_lookups_before_remote (s : AppState) (geo : Geometry)
    (zoomLevel : ℚ) (remote : RemoteResult) (now : ℕ) (fit : FitGeometry)
    (h1 : shouldEnhanceImage zoomLevel = true)
    (h2 : getCurrentBaseImage s ≠ "")
    (h3 : geo.imagePresent = true) (h4 : geo.containerPresent = true) :
    (∀ cached, getCachedImage s.cache
        (enhanceKey (getCurrentBaseImage s)
          (enhanceCrop geo zoomLevel s.panPosition) zoomLevel) = some cached →
      checkAndEnhanceImage s geo zoomLevel remote now fit =
        { state := { s with currentDisplayImage := cached.data }
          remoteCalled := false }) ∧
    (∀ similar, getCachedImage s.cache
        (enhanceKey (getCurrentBaseImage s)
          (enhanceCrop geo zoomLevel s.panPosition) zoomLevel) = none →
      findSimilarCachedImage s.cache (getCurrentBaseImage s)
        (enhanceViewport (enhanceCrop geo zoomLevel s.panPosition)) zoomLevel
          100 = some similar →
      checkAndEnhanceImage s geo zoomLevel remote now fit =
        { state := { s with currentDisplayImage := similar.data }
          remoteCalled := false }) ∧
    ((checkAndEnhanceImage s geo zoomLevel remote now fit).remoteCalled = true →
      getCachedImage s.cache
        (enhanceKey (getCurrentBaseImage s)
          (enhanceCrop geo zoomLevel s.panPosition) zoomLevel) = none ∧
      findSimilarCachedImage s.cache (getCurrentBaseImage s)
        (enhanceViewport (enhanceCrop geo zoomLevel s.panPosition)) zoomLevel
          100 = none ∧
      s.enhancementState.isProcessing = false) := by
  refine ⟨fun cached hhit => checkAndEnhance_exactHit h1 h2 h3 h4 hhit,
    fun similar hmiss hsim => checkAndEnhance_similarHit h1 h2 h3 h4 hmiss hsim,
    fun hrc => ?_⟩
  cases hx : getCachedImage s.cache
      (enhanceKey (getCurrentBaseImage s)
        (enhanceCrop geo zoomLevel s.panPosition) zoomLevel) with
  | some cached =>
    rw [checkAndEnhance_exactHit h1 h2 h3 h4 hx] at hrc
    simp at hrc
  | none =>
    cases hy : findSimilarCachedImage s.cache (getCurrentBaseImage s)
        (enhanceViewport (enhanceCrop geo zoomLevel s.panPosition)) zoomLevel
          100 with
    | some similar =>
      rw [checkAndEnhance_similarHit h1 h2 h3 h4 hx hy] at hrc
      simp at hrc
    | none =>
      by_cases hp : s.enhancementState.isProcessing = true
      · rw [checkAndEnhance_processing h1 h2 h3 h4 hx hy hp] at hrc
        simp at hrc
      · simp only [Bool.not_eq_true] at hp
        exact ⟨rfl, rfl, hp⟩

/-- Witness for C5: a concrete state whose cache holds the exact key of
the current viewport — the cached image is displayed and no remote call
is made while the history stays unchanged. -/
theorem C5_cache_lookups_before_remote_witness :
    shouldEnhanceImage 4 = true ∧
    checkAndEnhanceImage c5State exGeometry 4 (RemoteResult.success "d") 0
        exFit =
      { state := { c5State with currentDisplayImage := "cached-data" }
        remoteCalled := false } :=
  ⟨by decide,
    (C5_cache_lookups_before_remote c5State exGeometry 4
      (RemoteResult.success "d") 0 exFit (by decide) (by decide) rfl rfl).1
      c5record (by decide)⟩

/-- C6 as stated is false: with the image panned fully off-screen to the
right (pan x = -2000 at zoom 4 on a 400x300 image in an 800x600
container), the computed rectangle has width -100 < 0 and
x = 500 ≥ sourceWidth = 400. -/
theorem C6_rectangle_invariant_counterexample :
    (getVisibleImageBounds exDOMRect exImage 4 (-2000, 0)).width = -100 ∧
    (getVisibleImageBounds exDOMRect exImage 4 (-2000, 0)).x = 500 ∧
    (getVisibleImageBounds exDOMRect exImage 4 (-2000, 0)).sourceWidth = 400 := by
  decide

/-- C6 amended: the computation clamps only below and only for the
offsets — every produced rectangle satisfies x ≥ 0 and y ≥ 0, while
width and height may be negative and x, y may lie outside the source
bounds. -/
theorem C6_xy_clamped_below (containerRect : DOMRectM) (img : ImageElementM)
    (zoomLevel : ℚ) (panPosition : ℚ × ℚ) :
    0 ≤ (getVisibleImageBounds containerRect img zoomLevel panPosition).x ∧
    0 ≤ (getVisibleImageBounds containerRect img zoomLevel panPosition).y :=
  ⟨le_max_left 0 _, le_max_left 0 _⟩

/-- C7 as stated is false: with a zero-area visible rectangle (image
panned just off-screen, crop width 0) the check is not suppressed — the
lookups run and a remote call is dispatched. -/
theorem C7_zero_area_counterexample :
    (enhanceCrop exGeometry 4 ((-1600 : ℚ), 0)).width = 0 ∧
    (checkAndEnhanceImage c7State exGeometry 4 (RemoteResult.success "d") 0
      exFit).remoteCalled = true := by
  decide

/-- C7 amended: the check is suppressed silently — no remote call, state
(including error, history and cache) untouched except for the display
fallback — exactly when zoom ≤ threshold, the base image is empty, or
one of the two element refs is absent; a zero-area visible rectangle or
zero layout dimensions do not suppress it. -/
theorem C7_guard_suppresses_silently (s : AppState) (geo : Geometry)
    (zoomLevel : ℚ) (remote : RemoteResult) (now : ℕ) (fit : FitGeometry)
    (h : shouldEnhanceImage zoomLevel = false ∨ getCurrentBaseImage s = "" ∨
      geo.imagePresent = false ∨ geo.containerPresent = false) :
    (checkAndEnhanceImage s geo zoomLevel remote now fit).remoteCalled = false ∧
    (checkAndEnhanceImage s geo zoomLevel remote now
      fit).state.enhancementState = s.enhancementState ∧
    (checkAndEnhanceImage s geo zoomLevel remote now fit).state.imageHistory =
      s.imageHistory ∧
    (checkAndEnhanceImage s geo zoomLevel remote now fit).state.cache =
      s.cache := by
  rw [checkAndEnhance_guard h]
  split
  · exact ⟨rfl, rfl, rfl, rfl⟩
  · exact ⟨rfl, rfl, rfl, rfl⟩

/-- Witness for C7: at zoom 2 (≤ threshold) the check in a concrete
state makes no remote call and leaves the enhancement state, history and
cache unchanged. -/
theorem C7_guard_suppresses_silently_witness :
    shouldEnhanceImage 2 = false ∧
    (checkAndEnhanceImage idleState exGeometry 2 (RemoteResult.success "d") 0
      exFit).remoteCalled = false ∧
    (checkAndEnhanceImage idleState exGeometry 2 (RemoteResult.success "d") 0
      exFit).state.enhancementState = idleState.enhancementState :=
  ⟨by decide,
    (C7_guard_suppresses_silently idleState exGeometry 2
      (RemoteResult.success "d") 0 exFit (Or.inl (by decide))).1,
    (C7_guard_suppresses_silently idleState exGeometry 2
      (RemoteResult.success "d") 0 exFit (Or.inl (by decide))).2.1⟩

/-- C8 as stated is false: zoom is keyed only up to two-decimal
rounding — changing the zoom input from 4.523 to 4.524 leaves the cache
key unchanged. -/
theorem C8_single_field_counterexample :
    (4523/1000 : ℚ) ≠ 4524/1000 ∧
    generateCacheKey "img" ⟨10, 20, 100, 80⟩ (4523/1000) =
      generateCacheKey "img" ⟨10, 20, 100, 80⟩ (4524/1000) := by
  decide

/-- C8 amended: the key is deterministic — equal base image, rectangle
and two-decimal-rounded zoom give equal keys; changing any single
rectangle field (x, y, width or height) changes the key; changing zoom
changes the key only when its two-decimal rounding changes. -/
theorem C8_key_determinism :
    (∀ (img : String) (v : ViewportBounds) (z₁ z₂ : ℚ),
      jsRound (z₁ * 100) = jsRound (z₂ * 100) →
        generateCacheKey img v z₁ = generateCacheKey img v z₂) ∧
    (∀ (img : String) (y w h : ℤ) (z : ℚ) (x₁ x₂ : ℤ), x₁ ≠ x₂ →
      generateCacheKey img ⟨x₁, y, w, h⟩ z ≠
        generateCacheKey img ⟨x₂, y, w, h⟩ z) ∧
    (∀ (img : String) (x w h : ℤ) (z : ℚ) (y₁ y₂ : ℤ), y₁ ≠ y₂ →
      generateCacheKey img ⟨x, y₁, w, h⟩ z ≠
        generateCacheKey img ⟨x, y₂, w, h⟩ z) ∧
    (∀ (img : String) (x y h : ℤ) (z : ℚ) (w₁ w₂ : ℤ), w₁ ≠ w₂ →
      generateCacheKey img ⟨x, y, w₁, h⟩ z ≠
        generateCacheKey img ⟨x, y, w₂, h⟩ z) ∧
    (∀ (img : String) (x y w : ℤ) (z : ℚ) (h₁ h₂ : ℤ), h₁ ≠ h₂ →
      generateCacheKey img ⟨x, y, w, h₁⟩ z ≠
        generateCacheKey img ⟨x, y, w, h₂⟩ z) :=
  ⟨fun _ _ _ _ hz => generateCacheKey_zoom_congr hz,
    fun _ _ _ _ _ _ _ hx hk => hx (generateCacheKey_x_inj hk),
    fun _ _ _ _ _ _ _ hy hk => hy (generateCacheKey_y_inj hk),
    fun _ _ _ _ _ _ _ hw hk => hw (generateCacheKey_width_inj hk),
    fun _ _ _ _ _ _ _ hh hk => hh (generateCacheKey_height_inj hk)⟩

/-- Witness for C8: determinism across the rounding boundary and a
concrete changed-x key difference. -/
theorem C8_key_determinism_witness :
    jsRound ((4523/1000 : ℚ) * 100) = jsRound ((4524/1000 : ℚ) * 100) ∧
    generateCacheKey "img" ⟨10, 20, 100, 80⟩ (4523/1000) =
      generateCacheKey "img" ⟨10, 20, 100, 80⟩ (4524/1000) ∧
    (10 : ℤ) ≠ 11 ∧
    generateCacheKey "img" ⟨10, 20, 100, 80⟩ 4 ≠
      generateCacheKey "img" ⟨11, 20, 100, 80⟩ 4 :=
  ⟨by decide,
    C8_key_determinism.1 "img" ⟨10, 20, 100, 80⟩ (4523/1000) (4524/1000)
      (by decide),
    by decide,
    C8_key_determinism.2.1 "img" 20 100 80 4 10 11 (by decide)⟩

/-- C9 as stated is false: uploading a new image while a request is in
flight neither cancels the request nor clears its id. -/
theorem C9_upload_counterexample :
    c9State.currentRequestId = some "req-9" ∧
    (handleImageUpload c9State "newimg").currentRequestId = some "req-9" ∧
    (handleImageUpload c9State "newimg").cancelledRequests = [] := by
  decide

/-- C9 amended: uploading a new source image resets display, history
(cursor -1), zoom 1, pan origin, cache and the enhancement flags, but
issues no cancellation — `currentRequestId` and the cancellation log are
left untouched. -/
theorem C9_upload_resets_without_cancel (s : AppState) (newImageSrc : String) :
    (handleImageUpload s newImageSrc).originalImageSrc = newImageSrc ∧
    (handleImageUpload s newImageSrc).currentDisplayImage = newImageSrc ∧
    (handleImageUpload s newImageSrc).imageHistory = [] ∧
    (handleImageUpload s newImageSrc).currentHistoryIndex = -1 ∧
    (handleImageUpload s newImageSrc).zoomLevel = 1 ∧
    (handleImageUpload s newImageSrc).panPosition = (0, 0) ∧
    (handleImageUpload s newImageSrc).cache.entries = [] ∧
    (handleImageUpload s newImageSrc).cache.recency = [] ∧
    (handleImageUpload s newImageSrc).enhancementState =
      { isProcessing := false, error := none, progress := 0
        lastProcessedZoom := 0 } ∧
    (handleImageUpload s newImageSrc).currentRequestId = s.currentRequestId ∧
    (handleImageUpload s newImageSrc).cancelledRequests = s.cancelledRequests :=
  ⟨rfl, rfl, rfl, rfl, rfl, rfl, rfl, rfl, rfl, rfl, rfl⟩

/-- C10: the cache key depends on the base image only through its first
50 characters — any two base images agreeing on that prefix produce the
same key for every rectangle and zoom. -/
theorem C10_prefix_only_dependence (img₁ img₂ : String) (v : ViewportBounds)
    (z : ℚ) (h : img₁.data.take 50 = img₂.data.take 50) :
    generateCacheKey img₁ v z = generateCacheKey img₂ v z :=
  generateCacheKey_prefix_congr h

/-- Witness for C10: two distinct data-URL-shaped strings sharing their
first 50 characters collide to the same cache key. -/
theorem C10_prefix_only_dependence_witness :
    imgA ≠ imgB ∧ imgA.data.take 50 = imgB.data.take 50 ∧
    generateCacheKey imgA ⟨0, 0, 50, 50⟩ 4 = generateCacheKey imgB ⟨0, 0, 50, 50⟩ 4 :=
  ⟨by decide, by decide,
    C10_prefix_only_dependence imgA imgB ⟨0, 0, 50, 50⟩ 4 (by decide)⟩

end ClaimTheorems

end NBT
